import Mathlib

/-!
Shallow embedding of the LedgerScribe invoice pipeline (src/app.py) and
verification of the spec claims about its ledger/inventory reconciliation
and append logic.

Modelling conventions:
* Python floats are modelled as exact rationals; a float-to-string
  round-trip (`float(str(x))`) is treated as the identity.
* A JSON or spreadsheet scalar that is either a string or a number is
  modelled by `PyVal`; an absent value (missing key, NaN cell) by `Option`.
* A Python exception escaping an operation is modelled by an `Option`
  result being `none`; a surfaced Streamlit error or warning by a `Bool`
  flag in the operation's result.
* `float(...)` is modelled by `pyFloat?` over plain decimal literals
  (optional sign, digits, at most one dot, surrounding whitespace);
  `int(...)` on strings by `pyInt?`, on numbers by truncation toward zero.
* The pandas NaN that `max()` yields on an empty column is modelled by
  `none` in `Option ℤ`-valued serial numbers.
-/

namespace LedgerScribe

/-- Scalar value found in parsed JSON or a spreadsheet cell: a string or a number. -/
inductive PyVal where
  | str (s : String)
  | num (q : ℚ)
  deriving DecidableEq, Repr

/-- Whitespace characters recognised by Python's `str.strip` and `float`. -/
def isSpace (c : Char) : Bool :=
  c = ' ' || c = '\t' || c = '\n' || c = '\r' || c = '\x0b' || c = '\x0c'

/-- Remove leading and trailing whitespace from a character list. -/
def trimChars (cs : List Char) : List Char :=
  ((cs.dropWhile isSpace).reverse.dropWhile isSpace).reverse

/-- Python `str.strip()`. -/
def pyStrip (s : String) : String := ⟨trimChars s.data⟩

/-- Numeric value of a digit string. -/
def digitsToNat (cs : List Char) : ℕ :=
  cs.foldl (fun a c => 10 * a + (c.toNat - 48)) 0

/-- Magnitude accepted by Python `float`: digits with at most one dot and
at least one digit overall (exponents and inf/nan are outside this model). -/
def pyFloatMag (cs : List Char) : Option ℚ :=
  let ds := cs.takeWhile Char.isDigit
  match cs.dropWhile Char.isDigit with
  | [] => if ds.isEmpty then none else some (digitsToNat ds)
  | '.' :: fs =>
    if fs.all Char.isDigit && !(ds.isEmpty && fs.isEmpty) then
      some ((digitsToNat ds : ℚ) + (digitsToNat fs : ℚ) / (10 : ℚ) ^ fs.length)
    else none
  | _ => none

/-- Python `float(s)` on plain decimal notation; `none` models `ValueError`. -/
def pyFloat? (s : String) : Option ℚ :=
  match trimChars s.data with
  | '+' :: cs => pyFloatMag cs
  | '-' :: cs => (pyFloatMag cs).map (fun q => -q)
  | cs => pyFloatMag cs

/-- Python `int(s)` on a string; `none` models `ValueError`. -/
def pyInt? (s : String) : Option ℤ :=
  match trimChars s.data with
  | '+' :: cs => if !cs.isEmpty && cs.all Char.isDigit then some (digitsToNat cs) else none
  | '-' :: cs => if !cs.isEmpty && cs.all Char.isDigit then some (-(digitsToNat cs : ℤ)) else none
  | cs => if !cs.isEmpty && cs.all Char.isDigit then some (digitsToNat cs) else none

/-- Python `int(q)` on a number: truncation toward zero. -/
def pyTrunc (q : ℚ) : ℤ := if 0 ≤ q then ⌊q⌋ else ⌈q⌉

/-- The two chained `.replace` calls that drop every `$` and `,`. -/
def cleanMoney (s : String) : String :=
  ⟨s.data.filter (fun c => !(c = '$' || c = ','))⟩

/-- Python `round(x, 2)`: banker's rounding to two decimal places. -/
def rnd2 (x : ℚ) : ℚ :=
  let y := x * 100
  let n : ℤ := ⌊y⌋
  let k : ℤ :=
    if y - n < 1 / 2 then n
    else if 1 / 2 < y - n then n + 1
    else if n % 2 = 0 then n else n + 1
  (k : ℚ) / 100

/-- Raw line item as parsed from the collaborator's JSON (every key may be absent). -/
structure RawItem where
  description : Option String
  quantity : Option PyVal
  amount : Option PyVal
  deriving DecidableEq, Repr

/-- Raw extraction object as parsed from the collaborator's JSON; a missing
`line_items` key behaves as `[]` (`data.get("line_items", [])`). Header fields
are modelled as strings or absent; `subtotal`, `taxes` and `contact_info` are
never consumed by the pipeline under verification and are omitted. -/
structure RawInvoice where
  invoice_number : Option String
  invoice_date : Option String
  vendor_name : Option String
  total_amount : Option PyVal
  line_items : List RawItem
  deriving DecidableEq, Repr

/-- Line item after extraction-time normalization (app.py lines 92-96). -/
structure LineItem where
  description : Option String
  quantity : ℤ
  amount : ℚ
  unit_cost : ℚ
  deriving DecidableEq, Repr

/-- Session invoice data (`st.session_state["extracted_data"]`); the empty
dict `{}` is modelled as `none` at the `Session` level. -/
structure ExtractedData where
  invoice_number : Option String
  invoice_date : Option String
  vendor_name : Option String
  total_amount : Option PyVal
  line_items : List LineItem
  deriving DecidableEq, Repr

/-- One row of the editable journal-entries table. -/
structure JEntry where
  debit : String
  credit : String
  amount : ℚ
  deriving DecidableEq, Repr

/-- One persisted ledger row; `sr_no = none` models a NaN cell. -/
structure LRow where
  sr_no : Option ℤ
  date : String
  reference : String
  description : String
  debit : Option ℚ
  credit : Option ℚ
  deriving DecidableEq, Repr

/-- One raw persisted inventory row. -/
structure InvRow where
  description : Option String
  quantity : PyVal
  amount : PyVal
  invoice_number : String
  invoice_date : String
  deriving DecidableEq, Repr

/-- Amount cleaning at extraction, app.py line 93: an absent amount defaults
to the string `$0`; a numeric value hits `str.replace` and raises
`AttributeError`, modelled as `none`. -/
def itemAmountStr? : Option PyVal → Option String
  | none => some (cleanMoney "$0")
  | some (.str s) => some (cleanMoney s)
  | some (.num _) => none

/-- Line-item amount normalization, app.py lines 93-94; `none` = exception. -/
def itemAmount? (v : Option PyVal) : Option ℚ := (itemAmountStr? v).bind pyFloat?

/-- Line-item quantity, app.py line 95: `int(item.get("quantity", 1))`. -/
def itemQuantity? : Option PyVal → Option ℤ
  | none => some 1
  | some (.num q) => some (pyTrunc q)
  | some (.str s) => pyInt? s

/-- Normalization of one extracted line item, app.py lines 92-96;
`none` = an exception caught by the handler's outer `except`. -/
def normalizeItem (it : RawItem) : Option LineItem := do
  let amount ← itemAmount? it.amount
  let qty ← itemQuantity? it.quantity
  some { description := it.description, quantity := qty, amount := amount,
         unit_cost := if qty ≠ 0 then rnd2 (amount / (qty : ℚ)) else 0 }

/-- Normalization of the whole `line_items` list, app.py lines 92-96: the
first exception aborts the handler (`none`). -/
def normalizeItems : List RawItem → Option (List LineItem)
  | [] => some []
  | it :: its => do
    let li ← normalizeItem it
    let rest ← normalizeItems its
    some (li :: rest)

/-- Total-amount normalization at the Suggest handler, app.py lines 191-197:
`str(...)`, strip `$` and `,`, `float(...)` with `0.0` on any exception. -/
def normalizeTotal : Option PyVal → ℚ
  | none => 0
  | some (.num q) => q
  | some (.str s) => (pyFloat? (pyStrip (cleanMoney s))).getD 0

/-- The hardcoded vendor-to-category map, app.py lines 20-24. -/
def vendorCategoryMap (v : String) : Option String :=
  if v = "ABCD" then some "Office Supplies"
  else if v = "Google" then some "IT Services"
  else if v = "Staples" then some "Office Supplies"
  else none

/-- Category resolution of app.py lines 199-214, instrumented with a flag
recording whether the external collaborator was invoked; `oracle = none`
models a failing external call, `oracle = some s` a reply with content `s`. -/
def resolveCategoryT (vendor : String) (oracle : Option String) : String × Bool :=
  match vendorCategoryMap vendor with
  | some c => (c, false)
  | none =>
    match oracle with
    | some s => (pyStrip s, true)
    | none => ("Uncategorized", true)

/-- Rows of a possibly missing ledger file (`none` = file does not exist). -/
def ledRows (led : Option (List LRow)) : List LRow := led.getD []

/-- Column maximum with pandas `skipna` semantics: NaN (`none`) entries are
skipped and the maximum of an empty column is NaN. -/
def maxSr : List LRow → Option ℤ
  | [] => none
  | r :: rs =>
    match r.sr_no, maxSr rs with
    | none, m => m
    | some v, none => some v
    | some v, some m => some (max v m)

/-- Serial computation of app.py lines 239-244: `1` when no ledger file
exists, otherwise `existing["sr_no"].max() + 1` (NaN-propagating). -/
def nextSerial : Option (List LRow) → Option ℤ
  | none => some 1
  | some rows => (maxSr rows).map (· + 1)

/-- Row-construction loop of app.py lines 246-252: each entry becomes one
debit row and one credit row at consecutive serials. -/
def mkRows : List JEntry → String → String → Option ℤ → List LRow
  | [], _, _, _ => []
  | e :: es, date, ref, sr =>
    { sr_no := sr, date := date, reference := ref, description := e.debit,
      debit := some e.amount, credit := none } ::
    { sr_no := sr.map (· + 1), date := date, reference := ref, description := e.credit,
      debit := none, credit := some e.amount } ::
    mkRows es date ref (sr.map (· + 2))

/-- Concatenate-and-persist of app.py lines 254-256. -/
def appendLedger (led : Option (List LRow)) (entries : List JEntry) (date ref : String) :
    Option (List LRow) :=
  some (ledRows led ++ mkRows entries date ref (nextSerial led))

/-- Serial numbers form the run `k, k+1, k+2, ...` over the whole list. -/
def serialFrom : List LRow → ℤ → Bool
  | [], _ => true
  | r :: rs, k => decide (r.sr_no = some k) && serialFrom rs (k + 1)

/-- The spec's ledger invariant: `sr_no` equals row position, starting at 1. -/
def serialInvariant (rows : List LRow) : Bool := serialFrom rows 1

/-- Inventory row after the read-time coercions of app.py lines 287-289. -/
structure NRow where
  description : Option String
  quantity : ℚ
  amount : ℚ
  unit_cost : ℚ
  invoice_number : String
  invoice_date : String
  deriving DecidableEq, Repr

/-- Amount coercion of app.py line 287: `astype(str)`, strip `$` and `,`,
`astype(float)`; `none` models the exception raised on an unparseable cell. -/
def invAmount? : PyVal → Option ℚ
  | .num q => some q
  | .str s => pyFloat? (cleanMoney s)

/-- Quantity coercion of app.py line 288:
`pd.to_numeric(..., errors="coerce").fillna(0)`. -/
def invQuantity : PyVal → ℚ
  | .num q => q
  | .str s => (pyFloat? s).getD 0

/-- Per-row normalization of the Inventory view, app.py lines 287-289.
Note the quotient on line 289 is not rounded. -/
def normalizeInvRow (r : InvRow) : Option NRow := do
  let a ← invAmount? r.amount
  let q := invQuantity r.quantity
  some { description := r.description, quantity := q, amount := a,
         unit_cost := if q ≠ 0 then a / q else 0,
         invoice_number := r.invoice_number, invoice_date := r.invoice_date }

/-- Distinct group keys of a column (order irrelevant, the result is sorted). -/
def dedupKeys : List String → List String
  | [] => []
  | s :: ss => if ss.contains s then dedupKeys ss else s :: dedupKeys ss

/-- Insert a key into an ascending list, keeping it ascending. -/
def insertKey (s : String) : List String → List String
  | [] => [s]
  | t :: ts => if t < s then t :: insertKey s ts else s :: t :: ts

/-- Ascending sort, as pandas `groupby` sorts group keys. -/
def sortKeys : List String → List String
  | [] => []
  | s :: ss => insertKey s (sortKeys ss)

/-- One row of the aggregated inventory view. -/
structure AggRow where
  description : String
  quantity : ℚ
  amount : ℚ
  unit_cost : ℚ
  invoice_number : String
  invoice_date : String
  deriving DecidableEq, Repr

/-- Aggregation of app.py lines 291-297 for one group key: quantity and
amount summed, unit cost averaged, invoice fields from the last row. -/
def aggFor (rows : List NRow) (d : String) : AggRow :=
  let g := rows.filter (fun r => decide (r.description = some d))
  { description := d,
    quantity := (g.map (fun r => r.quantity)).sum,
    amount := (g.map (fun r => r.amount)).sum,
    unit_cost := (g.map (fun r => r.unit_cost)).sum / (g.length : ℚ),
    invoice_number := ((g.getLast?).map (fun r => r.invoice_number)).getD "",
    invoice_date := ((g.getLast?).map (fun r => r.invoice_date)).getD "" }

/-- Normalization of all raw inventory rows, app.py lines 287-289; pandas
`astype(float)` raises on the first bad amount (`none`). -/
def normalizeInvRows : List InvRow → Option (List NRow)
  | [] => some []
  | r :: rs => do
    let n ← normalizeInvRow r
    let rest ← normalizeInvRows rs
    some (n :: rest)

/-- Read-time inventory aggregate, app.py lines 285-298. The argument is the
inventory file (`none` = missing, shown as an empty view); the result is
`none` when the amount coercion raises. Rows with an absent description are
dropped by `groupby`. -/
def readAggregated : Option (List InvRow) → Option (List AggRow)
  | none => some []
  | some raw =>
    match normalizeInvRows raw with
    | none => none
    | some rows =>
      some ((sortKeys (dedupKeys (rows.filterMap (fun r => r.description)))).map (aggFor rows))

/-- Session state (`st.session_state`): extracted data, journal entries and
the remembered category. -/
structure Session where
  extracted : Option ExtractedData
  journal : List JEntry
  category : Option String
  deriving DecidableEq, Repr

/-- Whole observable state: session plus the two persisted files
(`none` = the file does not exist). -/
structure World where
  session : Session
  ledger : Option (List LRow)
  inventory : Option (List InvRow)
  deriving DecidableEq, Repr

/-- Fresh state: empty session, no ledger file, no inventory file. -/
def initialWorld : World := ⟨⟨none, [], none⟩, none, none⟩

/-- Extract Invoice Fields handler, app.py lines 83-102. `resp = none`
models collaborator output that `json.loads` rejects; a line-item
normalization failure aborts the whole handler. The `Bool` is `true` when
the error banner is shown, in which case nothing is stored. -/
def extractFields (w : World) (resp : Option RawInvoice) : World × Bool :=
  match resp with
  | none => (w, true)
  | some d =>
    match normalizeItems d.line_items with
    | none => (w, true)
    | some items =>
      ({ w with session := { w.session with extracted := some (
          { invoice_number := d.invoice_number, invoice_date := d.invoice_date,
            vendor_name := d.vendor_name, total_amount := d.total_amount,
            line_items := items } : ExtractedData) } }, false)

/-- Add Item handler, app.py lines 125-134: appends a line item when the
description is nonempty and the amount positive; the stored `total_amount`
is not touched. -/
def addItem (w : World) (desc : String) (qty : ℤ) (amt : ℚ) : World :=
  match w.session.extracted with
  | none => w
  | some d =>
    if desc ≠ "" ∧ 0 < amt then
      { w with session := { w.session with extracted := some (
          { d with line_items := d.line_items ++
              [{ description := some desc, quantity := qty, amount := amt,
                 unit_cost := if 0 < qty then rnd2 (amt / (qty : ℚ)) else 0 }] }) } }
    else w

/-- Item delete button, app.py lines 144-147. -/
def deleteItem (w : World) (idx : ℕ) : World :=
  match w.session.extracted with
  | none => w
  | some d =>
    { w with session := { w.session with extracted := some (
        { d with line_items := d.line_items.eraseIdx idx }) } }

/-- Sum of the current line-item amounts (app.py line 149). -/
def sumAmounts (items : List LineItem) : ℚ := (items.map (fun it => it.amount)).sum

/-- Process Invoice submit, app.py lines 149 and 171-176: stores the form
header fields and the derived `total_amount`; the form has no input for
`total_amount` (its widget is disabled). -/
def processInvoice (w : World) (num date vendor : String) : World :=
  match w.session.extracted with
  | none => w
  | some d =>
    { w with session := { w.session with extracted := some (
        { d with invoice_number := some num, invoice_date := some date,
                 vendor_name := some vendor,
                 total_amount := some (.num (sumAmounts d.line_items)) }) } }

/-- Suggest Journal Entries handler, app.py lines 187-221. The `Bool` is
`true` when the warning is shown (no extracted data) and nothing changes. -/
def suggestEntries (w : World) (oracle : Option String) : World × Bool :=
  match w.session.extracted with
  | none => (w, true)
  | some d =>
    let amount := normalizeTotal d.total_amount
    let vendor := pyStrip (d.vendor_name.getD "")
    let category := (resolveCategoryT vendor oracle).1
    ({ w with session := { w.session with
        journal := [{ debit := category, credit := "Accounts Payable", amount := amount }],
        category := some category } }, false)

/-- Confirm and Save to Ledger handler, app.py lines 231-271: append the
edited entries to the ledger, then sync the inventory file when the
remembered category is `Inventory Purchases`. An empty edited table only
shows a warning. -/
def confirmStep (w : World) (edited : List JEntry) : World :=
  if edited = [] then w
  else
    let d := w.session.extracted
    let date := (d.bind (fun x => x.invoice_date)).getD "Enter invoice date"
    let ref := (d.bind (fun x => x.invoice_number)).getD "unknown"
    let w1 := { w with ledger := appendLedger w.ledger edited date ref }
    if w.session.category = some "Inventory Purchases" then
      let items := (d.map (fun x => x.line_items)).getD []
      { w1 with inventory := some ((w1.inventory.getD []) ++ items.map (fun it =>
          { description := it.description, quantity := .num (it.quantity : ℚ),
            amount := .num it.amount, invoice_number := ref, invoice_date := date })) }
    else w1

/-- Default placeholder row of the journal `data_editor`, app.py line 225. -/
def placeholderEntry : JEntry := { debit := "", credit := "", amount := 0 }

/-- Modelled from the spec, §4.1 FieldNormalizer, monetary rule: "produce a
non-negative decimal; on any parse failure produce 0.0 and do not raise".
Stated for comparison with the source's inventory-read amount coercion. -/
def specNormalizeMoney : PyVal → ℚ
  | .num q => q
  | .str s => (pyFloat? (cleanMoney s)).getD 0

/-- Modelled from the spec, §4.1 FieldNormalizer, quantity rule: "produce an
integer ≥ 1 default when absent or non-numeric"; the default is 1. Stated
for comparison with the source's inventory-read quantity coercion. -/
def specNormalizeQuantity : PyVal → ℤ
  | .num q => pyTrunc q
  | .str s => (pyInt? s).getD 1

/-! Concrete sample data used by the claim theorems. -/

/-- The spec's round-trip example entry. -/
def sampleEntry : JEntry :=
  { debit := "Office Supplies", credit := "Accounts Payable", amount := 150 }

/-- A collaborator response that is valid JSON but lacks required keys. -/
def partialResp : RawInvoice :=
  { invoice_number := none, invoice_date := none, vendor_name := some "X",
    total_amount := none, line_items := [] }

/-- A collaborator response with an unparseable line-item amount. -/
def badItemResp : RawInvoice :=
  { invoice_number := some "I1", invoice_date := some "2024-01-02",
    vendor_name := some "V", total_amount := some (.str "10"),
    line_items := [{ description := some "pens", quantity := some (.num 1),
                     amount := some (.str "bad") }] }

/-- The raw line item used against C7. -/
def rawC7Item : RawItem :=
  { description := some "pens", quantity := some (.num 1), amount := some (.str "$150.00") }

/-- The invoice used against C7: the collaborator reports
`total_amount = "999"` while the only line item amounts to 150. -/
def rawC7 : RawInvoice :=
  { invoice_number := some "INV-1", invoice_date := some "2024-01-02",
    vendor_name := some "Google", total_amount := some (.str "999"),
    line_items := [rawC7Item] }

/-- The normalized form of `rawC7Item`. -/
def c7Line : LineItem :=
  { description := some "pens", quantity := 1, amount := 150, unit_cost := 150 }

/-- The session data stored by extracting `rawC7`. -/
def c7Extracted : ExtractedData :=
  { invoice_number := some "INV-1", invoice_date := some "2024-01-02",
    vendor_name := some "Google", total_amount := some (.str "999"),
    line_items := [c7Line] }

/-- A session world holding two already-normalized line items. -/
def c7World : World :=
  { session := { extracted := some c7Extracted, journal := [], category := none },
    ledger := none, inventory := none }

/-- The inventory row used against C9: amount 10 over quantity 3. -/
def oddRow : InvRow :=
  { description := some "widget", quantity := .num 3, amount := .num 10,
    invoice_number := "I1", invoice_date := "2024-01-02" }

/-- The normalized form of `oddRow`: its unit cost is exactly 10/3. -/
def oddNRow : NRow :=
  { description := some "widget", quantity := 3, amount := 10, unit_cost := 10 / 3,
    invoice_number := "I1", invoice_date := "2024-01-02" }

/-- An extracted line item with quantity 0. -/
def zeroQtyItem : RawItem :=
  { description := none, quantity := some (.num 0), amount := some (.str "7") }

/-- Its normalized form: unit cost 0, no division error. -/
def zeroQtyLine : LineItem :=
  { description := none, quantity := 0, amount := 7, unit_cost := 0 }

/-- An inventory row with quantity 0. -/
def zeroQtyInvRow : InvRow :=
  { description := some "a", quantity := .num 0, amount := .num 7,
    invoice_number := "I1", invoice_date := "2024-01-02" }

/-- Its normalized form: unit cost 0, no division error. -/
def zeroQtyNRow : NRow :=
  { description := some "a", quantity := 0, amount := 7, unit_cost := 0,
    invoice_number := "I1", invoice_date := "2024-01-02" }

/-- First raw inventory row of the spec's aggregation example. -/
def pensRow1 : InvRow :=
  { description := some "pens", quantity := .num 2, amount := .num 20,
    invoice_number := "I1", invoice_date := "D1" }

/-- Second raw inventory row of the spec's aggregation example. -/
def pensRow2 : InvRow :=
  { description := some "pens", quantity := .num 3, amount := .num 45,
    invoice_number := "I2", invoice_date := "D2" }

/-- Normalized form of `pensRow1`: unit cost 20/2 = 10. -/
def pensNRow1 : NRow :=
  { description := some "pens", quantity := 2, amount := 20, unit_cost := 10,
    invoice_number := "I1", invoice_date := "D1" }

/-- Normalized form of `pensRow2`: unit cost 45/3 = 15. -/
def pensNRow2 : NRow :=
  { description := some "pens", quantity := 3, amount := 45, unit_cost := 15,
    invoice_number := "I2", invoice_date := "D2" }

/-- The spec's expected aggregate: quantity 5, amount 65, unit cost the
mean 12.5 = 25/2, invoice fields from the last row. -/
def pensAgg : AggRow :=
  { description := "pens", quantity := 5, amount := 65, unit_cost := 25 / 2,
    invoice_number := "I2", invoice_date := "D2" }

/-- An inventory row whose quantity cell is not numeric. -/
def badQtyRow : InvRow :=
  { description := some "pens", quantity := .str "x", amount := .str "10",
    invoice_number := "I1", invoice_date := "D1" }

/-- Normalized form of `badQtyRow`: the quantity coerces to 0, not 1. -/
def badQtyNRow : NRow :=
  { description := some "pens", quantity := 0, amount := 10, unit_cost := 0,
    invoice_number := "I1", invoice_date := "D1" }

/-- Aggregate of `badQtyRow` alone: quantity 0, unit cost 0. -/
def badQtyAgg : AggRow :=
  { description := "pens", quantity := 0, amount := 10, unit_cost := 0,
    invoice_number := "I1", invoice_date := "D1" }

/-- An inventory row whose amount cell is not parseable. -/
def badAmtRow : InvRow :=
  { description := some "pens", quantity := .num 1, amount := .str "bad",
    invoice_number := "I1", invoice_date := "D1" }

/-! Helper lemmas about the ledger append. -/

theorem mkRows_length (es : List JEntry) (d r : String) (sr : Option ℤ) :
    (mkRows es d r sr).length = 2 * es.length := by
  induction es generalizing sr with
  | nil => simp [mkRows]
  | cons e es ih => simp [mkRows, ih]; ring

theorem mkRows_shape (es : List JEntry) (d r : String) (sr : Option ℤ) (i : ℕ)
    (hi : i < es.length) :
    (mkRows es d r sr)[2 * i]? = some
      { sr_no := sr.map (· + 2 * i), date := d, reference := r,
        description := (es.get ⟨i, hi⟩).debit, debit := some ((es.get ⟨i, hi⟩).amount),
        credit := none } ∧
    (mkRows es d r sr)[2 * i + 1]? = some
      { sr_no := sr.map (· + 2 * i + 1), date := d, reference := r,
        description := (es.get ⟨i, hi⟩).credit, debit := none,
        credit := some ((es.get ⟨i, hi⟩).amount) } := by
  induction es generalizing sr i with
  | nil => simp at hi
  | cons e es ih =>
    cases i with
    | zero =>
      constructor
      · simp [mkRows]
      · simp [mkRows]
    | succ i =>
      have hi' : i < es.length := by simpa using Nat.lt_of_succ_lt_succ hi
      have h2 : 2 * (i + 1) = 2 * i + 1 + 1 := by ring
      have ih' := ih (sr.map (· + 2)) i hi'
      constructor
      · rw [h2]
        simp only [mkRows, List.getElem?_cons_succ]
        rw [ih'.1]
        cases sr with
        | none => simp
        | some v =>
          simp
          ring
      · rw [h2]
        simp only [mkRows, List.getElem?_cons_succ]
        rw [ih'.2]
        cases sr with
        | none => simp
        | some v =>
          simp
          ring

theorem mkRows_mem (es : List JEntry) (d r : String) (sr : Option ℤ) (row : LRow)
    (h : row ∈ mkRows es d r sr) :
    row.date = d ∧ row.reference = r ∧
      ((row.debit ≠ none ∧ row.credit = none) ∨ (row.debit = none ∧ row.credit ≠ none)) := by
  induction es generalizing sr with
  | nil => simp [mkRows] at h
  | cons e es ih =>
    simp only [mkRows, List.mem_cons] at h
    rcases h with h | h | h
    · subst h; simp
    · subst h; simp
    · exact ih (sr.map (· + 2)) h

theorem serialFrom_append (xs ys : List LRow) (k : ℤ) :
    serialFrom (xs ++ ys) k = (serialFrom xs k && serialFrom ys (k + xs.length)) := by
  induction xs generalizing k with
  | nil => simp [serialFrom]
  | cons x xs ih =>
    have h3 : k + 1 + (xs.length : ℤ) = k + ((xs.length : ℤ) + 1) := by ring
    simp only [List.cons_append, serialFrom, List.length_cons, Bool.and_assoc]
    rw [List.append_eq, ih, h3]
    push_cast
    rfl

theorem serialFrom_mkRows (es : List JEntry) (d r : String) (k : ℤ) :
    serialFrom (mkRows es d r (some k)) k = true := by
  induction es generalizing k with
  | nil => simp [mkRows, serialFrom]
  | cons e es ih =>
    have h3 : k + 1 + 1 = k + 2 := by ring
    simp only [mkRows, serialFrom, Option.map, h3]
    simp [h3, ih]

theorem maxSr_of_serialFrom (rows : List LRow) (k : ℤ)
    (h : serialFrom rows k = true) (hne : rows ≠ []) :
    maxSr rows = some (k + rows.length - 1) := by
  induction rows generalizing k with
  | nil => exact absurd rfl hne
  | cons r rs ih =>
    simp only [serialFrom, Bool.and_eq_true, decide_eq_true_eq] at h
    obtain ⟨h1, h2⟩ := h
    by_cases hrs : rs = []
    · subst hrs
      simp only [maxSr, h1, List.length_cons, List.length_nil]
      congr 1
      push_cast
      omega
    · have hmax := ih (k + 1) h2 hrs
      simp only [maxSr, h1, hmax, List.length_cons]
      congr 1
      push_cast
      omega

theorem nextSerial_of_invariant (rows : List LRow)
    (h : serialInvariant rows = true) (hne : rows ≠ []) :
    nextSerial (some rows) = some ((rows.length : ℤ) + 1) := by
  have hmax := maxSr_of_serialFrom rows 1 h hne
  have h4 : (1 : ℤ) + rows.length - 1 + 1 = rows.length + 1 := by ring
  simp only [nextSerial, hmax, Option.map, h4]

theorem pyFloatMag_eval (cs ds fs : List Char) (a b : ℕ)
    (hds : cs.takeWhile Char.isDigit = ds)
    (hrest : cs.dropWhile Char.isDigit = '.' :: fs)
    (hfs : fs.all Char.isDigit = true)
    (hne : (ds.isEmpty && fs.isEmpty) = false)
    (ha : digitsToNat ds = a) (hb : digitsToNat fs = b) :
    pyFloatMag cs = some ((a : ℚ) + (b : ℚ) / (10 : ℚ) ^ fs.length) := by
  simp only [pyFloatMag]
  rw [hds, hrest]
  simp [hfs, hne, ha, hb]

theorem mem_insertKey (a s : String) (l : List String) :
    a ∈ insertKey s l ↔ a = s ∨ a ∈ l := by
  induction l with
  | nil => simp [insertKey]
  | cons t ts ih =>
    simp only [insertKey]
    split <;> (simp [ih]; try tauto)

theorem mem_sortKeys (a : String) (l : List String) : a ∈ sortKeys l ↔ a ∈ l := by
  induction l with
  | nil => simp [sortKeys]
  | cons s ss ih => simp [sortKeys, mem_insertKey, ih]

theorem mem_dedupKeys (a : String) (l : List String) : a ∈ dedupKeys l ↔ a ∈ l := by
  induction l with
  | nil => simp [dedupKeys]
  | cons s ss ih =>
    simp only [dedupKeys]
    by_cases hc : ss.contains s
    · rw [if_pos hc, ih]
      have hs : s ∈ ss := by simpa using hc
      simp only [List.mem_cons]
      constructor
      · exact Or.inr
      · rintro (rfl | h)
        · exact hs
        · exact h
    · rw [if_neg hc]
      simp [ih]

/-! Claim theorems. -/

/-- C1 (amended): appending N journal entries to a ledger that either does
not exist or whose table is nonempty and satisfies the serial invariant
grows the persisted table by exactly 2N rows, keeps every pre-existing row
unchanged, and re-establishes the serial invariant (`sr_no` = row
position, gap-free). The existing-but-empty table, excluded here, is the
subject of the counterexample. -/
theorem c1_amended (led : Option (List LRow)) (entries : List JEntry) (date ref : String)
    (h : led = none ∨ ∃ rows, led = some rows ∧ rows ≠ [] ∧ serialInvariant rows = true) :
    ∃ t, appendLedger led entries date ref = some t ∧
      t.length = (ledRows led).length + 2 * entries.length ∧
      t.take (ledRows led).length = ledRows led ∧
      serialInvariant t = true := by
  refine ⟨ledRows led ++ mkRows entries date ref (nextSerial led), rfl, ?_, ?_, ?_⟩
  · simp [mkRows_length]
  · exact List.take_left _ _
  · rcases h with h | ⟨rows, hled, hne, hinv⟩
    · subst h
      simpa [ledRows, nextSerial, serialInvariant] using
        serialFrom_mkRows entries date ref 1
    · subst hled
      have hnext := nextSerial_of_invariant rows hinv hne
      have h2 : serialFrom (mkRows entries date ref (some ((rows.length : ℤ) + 1)))
          (1 + (rows.length : ℤ)) = true := by
        have e : (1 : ℤ) + rows.length = (rows.length : ℤ) + 1 := by ring
        rw [e]
        exact serialFrom_mkRows entries date ref _
      simp only [ledRows, Option.getD, serialInvariant, hnext, serialFrom_append]
      simp [show serialFrom rows 1 = true from hinv, h2]

/-- C1 as literally stated is refuted by the existing-but-empty table: the
empty table satisfies the serial invariant, yet appending one entry to it
produces NaN serial numbers, so the resulting table violates the
gap-free-from-1 invariant. -/
theorem c1_counterexample :
    serialInvariant [] = true ∧
    appendLedger (some []) [{ debit := "A", credit := "B", amount := 5 }] "2024-01-02" "INV-1" =
      some [{ sr_no := none, date := "2024-01-02", reference := "INV-1", description := "A",
              debit := some 5, credit := none },
            { sr_no := none, date := "2024-01-02", reference := "INV-1", description := "B",
              debit := none, credit := some 5 }] ∧
    serialInvariant ((appendLedger (some []) [{ debit := "A", credit := "B", amount := 5 }]
        "2024-01-02" "INV-1").getD []) = false := by
  exact ⟨rfl, by decide, by decide⟩

/-- Witness for C1 at a concrete input: appending one entry to a
nonexistent ledger file. -/
theorem c1_witness :
    ∃ t, appendLedger none [sampleEntry] "2024-01-02" "INV-1" = some t ∧
      t.length = (ledRows none).length + 2 * [sampleEntry].length ∧
      t.take (ledRows none).length = ledRows none ∧
      serialInvariant t = true :=
  c1_amended none [sampleEntry] "2024-01-02" "INV-1" (Or.inl rfl)

/-- C2, evaluated at the failing input: on a nonexistent ledger the first
serial is 1 and appended rows are numbered from 1, but when the ledger file
exists with an empty table the computed serial is NaN (`max` of an empty
column, plus one), not 1, and both appended rows carry NaN serials. -/
theorem c2_code_bug_eval :
    nextSerial none = some 1 ∧
    nextSerial (some []) = none ∧
    ((appendLedger (some []) [{ debit := "A", credit := "B", amount := 5 }] "2024-01-02"
        "INV-1").getD []).map LRow.sr_no = [none, none] ∧
    ((appendLedger none [{ debit := "A", credit := "B", amount := 5 }] "2024-01-02"
        "INV-1").getD []).map LRow.sr_no = [some 1, some 2] := by
  exact ⟨rfl, rfl, by decide, by decide⟩

/-- C3: whenever the starting serial is an integer `s` (as on every
well-formed ledger state), the confirmed batch appends a block in which
entry `i` yields exactly two rows, at block positions `2i` and `2i+1`, with
consecutive serials `s+2i` and `s+2i+1`, sharing the invoice date and
reference: first a debit-only row described by the entry's debit account
carrying the entry's amount, then a credit-only row described by the credit
account carrying the same amount; and every appended row populates exactly
one of debit/credit. -/
theorem c3_rows_shape (led : Option (List LRow)) (entries : List JEntry) (date ref : String)
    (s : ℤ) (hs : nextSerial led = some s) (i : ℕ) (hi : i < entries.length) :
    appendLedger led entries date ref =
      some (ledRows led ++ mkRows entries date ref (some s)) ∧
    (mkRows entries date ref (some s)).length = 2 * entries.length ∧
    (mkRows entries date ref (some s))[2 * i]? = some
      { sr_no := some (s + 2 * i), date := date, reference := ref,
        description := (entries.get ⟨i, hi⟩).debit,
        debit := some ((entries.get ⟨i, hi⟩).amount), credit := none } ∧
    (mkRows entries date ref (some s))[2 * i + 1]? = some
      { sr_no := some (s + 2 * i + 1), date := date, reference := ref,
        description := (entries.get ⟨i, hi⟩).credit, debit := none,
        credit := some ((entries.get ⟨i, hi⟩).amount) } ∧
    ∀ row ∈ mkRows entries date ref (some s),
      row.date = date ∧ row.reference = ref ∧
        ((row.debit ≠ none ∧ row.credit = none) ∨ (row.debit = none ∧ row.credit ≠ none)) := by
  refine ⟨by rw [appendLedger, hs], mkRows_length _ _ _ _, ?_, ?_, ?_⟩
  · simpa using (mkRows_shape entries date ref (some s) i hi).1
  · simpa [add_assoc] using (mkRows_shape entries date ref (some s) i hi).2
  · intro row hrow
    exact mkRows_mem entries date ref (some s) row hrow

/-- Witness for C3: the spec's round-trip example entry, appended to a
nonexistent ledger, yields the debit-only row at block position 0. -/
theorem c3_witness :
    (mkRows [sampleEntry] "2024-01-02" "INV-1" (some 1))[0]? = some
      { sr_no := some 1, date := "2024-01-02", reference := "INV-1",
        description := "Office Supplies", debit := some 150, credit := none } := by
  simpa using
    (c3_rows_shape none [sampleEntry] "2024-01-02" "INV-1" 1 rfl 0 (by decide)).2.2.1

/-- C10: confirmation validates nothing: any nonempty edited table —
including the untouched default placeholder row — is split verbatim into
two ledger rows per entry and persisted, empty account descriptions and
zero amounts included. -/
theorem c10_no_validation (w : World) (edited : List JEntry) (h : edited ≠ []) :
    ∃ t, (confirmStep w edited).ledger = some t ∧
      t.length = (ledRows w.ledger).length + 2 * edited.length ∧
      t.take (ledRows w.ledger).length = ledRows w.ledger ∧
      ∀ i : ℕ, ∀ hi : i < edited.length,
        ∃ r1 r2, t[(ledRows w.ledger).length + 2 * i]? = some r1 ∧
          t[(ledRows w.ledger).length + 2 * i + 1]? = some r2 ∧
          r1.description = (edited.get ⟨i, hi⟩).debit ∧
          r1.debit = some ((edited.get ⟨i, hi⟩).amount) ∧ r1.credit = none ∧
          r2.description = (edited.get ⟨i, hi⟩).credit ∧
          r2.credit = some ((edited.get ⟨i, hi⟩).amount) ∧ r2.debit = none := by
  set dd := (w.session.extracted.bind (fun x => x.invoice_date)).getD "Enter invoice date"
    with hdd
  set rr := (w.session.extracted.bind (fun x => x.invoice_number)).getD "unknown" with hrr
  have hled : (confirmStep w edited).ledger =
      some (ledRows w.ledger ++ mkRows edited dd rr (nextSerial w.ledger)) := by
    by_cases hc : w.session.category = some "Inventory Purchases" <;>
      simp [confirmStep, h, hc, appendLedger, hdd, hrr]
  refine ⟨_, hled, ?_, ?_, ?_⟩
  · simp [mkRows_length]
  · exact List.take_left _ _
  · intro i hi
    obtain ⟨h1, h2⟩ := mkRows_shape edited dd rr (nextSerial w.ledger) i hi
    have e1 : (ledRows w.ledger ++
          mkRows edited dd rr (nextSerial w.ledger))[(ledRows w.ledger).length + 2 * i]? =
        (mkRows edited dd rr (nextSerial w.ledger))[2 * i]? := by
      rw [List.getElem?_append_right (by omega)]
      congr 1
      omega
    have e2 : (ledRows w.ledger ++
          mkRows edited dd rr (nextSerial w.ledger))[(ledRows w.ledger).length + 2 * i + 1]? =
        (mkRows edited dd rr (nextSerial w.ledger))[2 * i + 1]? := by
      rw [List.getElem?_append_right (by omega)]
      congr 1
      omega
    exact ⟨_, _, e1.trans h1, e2.trans h2, rfl, rfl, rfl, rfl, rfl, rfl⟩

/-- Witness for C10: confirming the untouched default placeholder entry on
a fresh state persists two rows with empty descriptions and amount 0. -/
theorem c10_witness :
    (∃ t, (confirmStep initialWorld [placeholderEntry]).ledger = some t ∧
      t.length = (ledRows initialWorld.ledger).length + 2 * 1) ∧
    (confirmStep initialWorld [placeholderEntry]).ledger =
      some [{ sr_no := some 1, date := "Enter invoice date", reference := "unknown",
              description := "", debit := some 0, credit := none },
            { sr_no := some 2, date := "Enter invoice date", reference := "unknown",
              description := "", debit := none, credit := some 0 }] := by
  constructor
  · obtain ⟨t, ht, hlen, -⟩ := c10_no_validation initialWorld [placeholderEntry] (by decide)
    exact ⟨t, ht, by simpa using hlen⟩
  · decide

/-- C4 as stated is false on two counts: the normalization result need not
be non-negative (a negative numeric string passes through), and the
line-item site raises (aborting extraction) instead of producing 0.0, both
on an unparseable string and on a numeric amount (which hits `str.replace`). -/
theorem c4_counterexample :
    normalizeTotal (some (.str "-5")) = -5 ∧
    normalizeTotal (some (.str "-5")) < 0 ∧
    itemAmount? (some (.str "bad")) = none ∧
    itemAmount? (some (.num 3)) = none := by
  have h1 : normalizeTotal (some (.str "-5")) = -5 := by decide
  refine ⟨h1, ?_, by decide, rfl⟩
  rw [h1]
  norm_num

/-- C4 (amended): the total-amount normalization (app.py 191-197) is a
total function that yields 0.0 on parse failure — "$1,234.56" normalizes to
1234.56, an absent value to 0, a numeric value passes through — but its
result may be negative; the line-item normalization (app.py 92-96)
defaults an absent amount to 0.0 and strips currency symbols and thousands
separators from strings, but raises (aborting the whole extraction) on an
unparseable string and on any non-string numeric amount instead of
producing 0.0. -/
theorem c4_amended (s : String) (hs : pyFloat? (pyStrip (cleanMoney s)) = none) :
    normalizeTotal (some (.str "$1,234.56")) = 1234.56 ∧
    normalizeTotal (some (.str s)) = 0 ∧
    normalizeTotal none = 0 ∧
    (∀ q : ℚ, normalizeTotal (some (.num q)) = q) ∧
    itemAmount? none = some 0 ∧
    (∀ u : String, itemAmount? (some (.str u)) = pyFloat? (cleanMoney u)) ∧
    (∀ q : ℚ, itemAmount? (some (.num q)) = none) := by
  refine ⟨?_, ?_, rfl, fun q => rfl, by decide, fun u => rfl, fun q => rfl⟩
  · have hc : trimChars (pyStrip (cleanMoney "$1,234.56")).data =
        ['1', '2', '3', '4', '.', '5', '6'] := by decide
    have hm := pyFloatMag_eval ['1', '2', '3', '4', '.', '5', '6'] ['1', '2', '3', '4']
      ['5', '6'] 1234 56 (by decide) (by decide) (by decide) (by decide) (by decide) (by decide)
    simp only [normalizeTotal]
    unfold pyFloat?
    rw [hc]
    show (pyFloatMag ['1', '2', '3', '4', '.', '5', '6']).getD 0 = 1234.56
    rw [hm]
    norm_num
  · simp [normalizeTotal, hs]

/-- Witness for C4: the spec's own failure example, normalized to 0.0. -/
theorem c4_witness : normalizeTotal (some (.str "bad")) = 0 :=
  (c4_amended "bad" (by decide)).2.1

/-- C6: category resolution consults the static vendor table first: a
mapped vendor (such as "Google") resolves to its category without invoking
the external collaborator, whatever the collaborator would answer; only on
a table miss is the collaborator invoked, a failing call yielding the
literal "Uncategorized" and a successful one its trimmed reply; the
resolver is total into strings, and the Suggest handler's output for a
mapped vendor is independent of the collaborator. -/
theorem c6_category_resolution :
    (∀ o : Option String, resolveCategoryT "Google" o = ("IT Services", false)) ∧
    (∀ v c : String, vendorCategoryMap v = some c →
      ∀ o : Option String, resolveCategoryT v o = (c, false)) ∧
    (∀ v : String, vendorCategoryMap v = none →
      resolveCategoryT v none = ("Uncategorized", true) ∧
      ∀ s : String, resolveCategoryT v (some s) = (pyStrip s, true)) ∧
    (∀ w : World, ∀ d : ExtractedData, ∀ o1 o2 : Option String,
      w.session.extracted = some d →
      vendorCategoryMap (pyStrip (d.vendor_name.getD "")) ≠ none →
      suggestEntries w o1 = suggestEntries w o2) := by
  refine ⟨fun o => rfl, ?_, ?_, ?_⟩
  · intro v c hv o
    simp [resolveCategoryT, hv]
  · intro v hv
    exact ⟨by simp [resolveCategoryT, hv], fun s => by simp [resolveCategoryT, hv]⟩
  · intro w d o1 o2 hd hv
    rcases hm : vendorCategoryMap (pyStrip (d.vendor_name.getD "")) with _ | c
    · exact absurd hm hv
    · simp [suggestEntries, hd, resolveCategoryT, hm]

/-- Witness for C6: another mapped vendor resolves from the table with no
collaborator call. -/
theorem c6_witness : resolveCategoryT "Staples" none = ("Office Supplies", false) :=
  c6_category_resolution.2.1 "Staples" "Office Supplies" rfl none

/-- C8 as stated is false for its missing-keys half: a response that is
valid JSON but lacks required keys is accepted — no error is surfaced and
the session's extracted data is overwritten. -/
theorem c8_counterexample :
    (extractFields initialWorld (some partialResp)).2 = false ∧
    (extractFields initialWorld (some partialResp)).1.session.extracted ≠
      initialWorld.session.extracted := by
  exact ⟨by decide, by decide⟩

/-- C8 (amended): when the collaborator response is not valid JSON, or any
line item fails normalization, the error is surfaced and nothing mutates:
the session (extracted data, journal entries, category) and both persisted
files are returned exactly as they were, so zero entries are persisted and
the ledger file is unchanged; a response that merely lacks required keys,
however, is not detected (see the counterexample). -/
theorem c8_amended (w : World) (d : RawInvoice)
    (hd : normalizeItems d.line_items = none) :
    extractFields w none = (w, true) ∧
    extractFields w (some d) = (w, true) := by
  refine ⟨rfl, ?_⟩
  simp [extractFields, hd]

/-- Witness for C8: a malformed line-item amount leaves the whole state
untouched and surfaces the error. -/
theorem c8_witness : extractFields initialWorld (some badItemResp) = (initialWorld, true) :=
  (c8_amended initialWorld badItemResp (by decide)).2

/-- C7 as stated is false: right after extraction — before any Process
Invoice submit — the suggested journal entry consumes the stored,
extraction-provided total (999), not the sum of the current line items
(150). -/
theorem c7_counterexample :
    (suggestEntries (extractFields initialWorld (some rawC7)).1 none).1.session.journal.map
        (fun e => e.amount) = [999] ∧
    sumAmounts (((extractFields initialWorld (some rawC7)).1.session.extracted.map
        (fun x => x.line_items)).getD []) = 150 ∧
    (999 : ℚ) ≠ 150 := by
  have h150 : itemAmount? (some (.str "$150.00")) = some 150 := by
    have hc : trimChars (cleanMoney "$150.00").data = ['1', '5', '0', '.', '0', '0'] := by decide
    have hm := pyFloatMag_eval ['1', '5', '0', '.', '0', '0'] ['1', '5', '0'] ['0', '0'] 150 0
      (by decide) (by decide) (by decide) (by decide) (by decide) (by decide)
    simp only [itemAmount?, itemAmountStr?, Option.bind]
    show pyFloat? (cleanMoney "$150.00") = some 150
    unfold pyFloat?
    rw [hc]
    show pyFloatMag ['1', '5', '0', '.', '0', '0'] = some 150
    rw [hm]
    norm_num
  have hitem : normalizeItem rawC7Item = some c7Line := by
    simp only [normalizeItem, rawC7Item, h150, itemQuantity?, pyTrunc, c7Line, Option.bind]
    norm_num [rnd2]
  have hx : extractFields initialWorld (some rawC7) =
      ({ session := { extracted := some c7Extracted, journal := [], category := none },
         ledger := none, inventory := none }, false) := by
    simp [extractFields, rawC7, normalizeItems, hitem, initialWorld, c7Extracted]
  refine ⟨?_, ?_, by norm_num⟩
  · rw [hx]
    simp only [suggestEntries, c7Extracted, List.map]
    decide
  · rw [hx]
    simp [c7Extracted, sumAmounts, c7Line]

/-- C7 (amended): `total_amount` is recomputed as the sum of the current
line-item amounts exactly when the invoice form is submitted (Process
Invoice), and the form offers no input for it (the widget is disabled, the
operation takes no total argument), so after a submit every downstream
consumer — including the suggested journal-entry amount — observes the
derived sum, independently of the other form inputs. Between extraction or
line-item edits and the next submit, however, the stored `total_amount`
keeps its previous value: adding or deleting items does not update it (see
the counterexample). -/
theorem c7_amended (w : World) (d : ExtractedData) (num date vendor : String)
    (o : Option String) (h : w.session.extracted = some d) :
    ((processInvoice w num date vendor).session.extracted.bind (fun x => x.total_amount)) =
      some (.num (sumAmounts d.line_items)) ∧
    ((suggestEntries (processInvoice w num date vendor) o).1.session.journal.map
        (fun e => e.amount)) = [sumAmounts d.line_items] ∧
    (∀ num2 date2 vendor2 : String,
      ((processInvoice w num2 date2 vendor2).session.extracted.bind (fun x => x.total_amount)) =
        ((processInvoice w num date vendor).session.extracted.bind (fun x => x.total_amount))) ∧
    (∀ desc : String, ∀ qty : ℤ, ∀ amt : ℚ,
      ((addItem w desc qty amt).session.extracted.bind (fun x => x.total_amount)) =
        w.session.extracted.bind (fun x => x.total_amount)) ∧
    (∀ idx : ℕ,
      ((deleteItem w idx).session.extracted.bind (fun x => x.total_amount)) =
        w.session.extracted.bind (fun x => x.total_amount)) := by
  refine ⟨?_, ?_, ?_, ?_, ?_⟩
  · simp [processInvoice, h]
  · simp [suggestEntries, processInvoice, h, normalizeTotal]
  · intro num2 date2 vendor2
    simp [processInvoice, h]
  · intro desc qty amt
    simp only [addItem, h]
    split <;> simp [h]
  · intro idx
    simp [deleteItem, h]

/-- Witness for C7: after a Process Invoice submit the stored total is the
derived sum of the current line items. -/
theorem c7_witness :
    ((processInvoice c7World "INV-1" "2024-01-02" "Google").session.extracted.bind
        (fun x => x.total_amount)) = some (.num (sumAmounts c7Extracted.line_items)) :=
  (c7_amended c7World c7Extracted "INV-1" "2024-01-02" "Google" none rfl).1

/-- C9 as stated is false at inventory read time: the per-row unit cost on
app.py line 289 is the raw quotient, not the quotient rounded to 2 decimal
places — for amount 10 and quantity 3 the view reports 10/3, while the
claimed rounding would give 3.33. -/
theorem c9_counterexample :
    readAggregated (some [oddRow]) =
      some [{ description := "widget", quantity := 3, amount := 10, unit_cost := 10 / 3,
              invoice_number := "I1", invoice_date := "2024-01-02" }] ∧
    rnd2 ((10 : ℚ) / 3) = 333 / 100 ∧
    ((10 : ℚ) / 3) ≠ 333 / 100 := by
  have hn : normalizeInvRow oddRow = some oddNRow := by
    simp only [normalizeInvRow, oddRow, invAmount?, invQuantity, oddNRow, Option.bind]
    norm_num
  have hrows : normalizeInvRows [oddRow] = some [oddNRow] := by
    simp [normalizeInvRows, hn]
  refine ⟨?_, ?_, by norm_num⟩
  · simp only [readAggregated, hrows]
    have hk : sortKeys (dedupKeys ([oddNRow].filterMap (fun r => r.description))) =
        ["widget"] := by
      simp [oddNRow, dedupKeys, sortKeys, insertKey]
    rw [hk]
    simp only [List.map, aggFor, oddNRow]
    norm_num
  · norm_num [rnd2]

/-- C9 (amended): unit-cost derivation is total and never divides by zero:
at extraction time it is `round(amount / quantity, 2)` when the quantity is
nonzero and 0 otherwise; at inventory read time it is the unrounded
`amount / quantity` when the quantity is nonzero and 0 otherwise. -/
theorem c9_amended (it : RawItem) (li : LineItem) (r : InvRow) (n : NRow)
    (h1 : normalizeItem it = some li) (h2 : normalizeInvRow r = some n) :
    li.unit_cost = (if li.quantity ≠ 0 then rnd2 (li.amount / (li.quantity : ℚ)) else 0) ∧
    (li.quantity = 0 → li.unit_cost = 0) ∧
    n.unit_cost = (if n.quantity ≠ 0 then n.amount / n.quantity else 0) ∧
    (n.quantity = 0 → n.unit_cost = 0) := by
  simp only [normalizeItem, Option.bind_eq_bind, Option.bind_eq_some] at h1
  obtain ⟨a, -, q, -, hli⟩ := h1
  simp only [Option.some_inj] at hli
  subst hli
  simp only [normalizeInvRow, Option.bind_eq_bind, Option.bind_eq_some] at h2
  obtain ⟨b, -, hn⟩ := h2
  simp only [Option.some_inj] at hn
  subst hn
  refine ⟨rfl, ?_, rfl, ?_⟩
  · intro hq
    have hq2 : q = 0 := hq
    simp [hq2]
  · intro hq
    have hq2 : invQuantity r.quantity = 0 := hq
    simp [hq2]

/-- Witness for C9: zero quantity yields unit cost 0 at both sites. -/
theorem c9_witness : zeroQtyLine.unit_cost = 0 ∧ zeroQtyNRow.unit_cost = 0 := by
  obtain ⟨-, h2, -, h4⟩ := c9_amended zeroQtyItem zeroQtyLine zeroQtyInvRow zeroQtyNRow
    (by decide) (by decide)
  exact ⟨h2 (by decide), h4 (by decide)⟩

theorem pens_normalize :
    normalizeInvRows [pensRow1, pensRow2] = some [pensNRow1, pensNRow2] := by
  have h1 : normalizeInvRow pensRow1 = some pensNRow1 := by
    simp only [normalizeInvRow, pensRow1, invAmount?, invQuantity, pensNRow1, Option.bind]
    norm_num
  have h2 : normalizeInvRow pensRow2 = some pensNRow2 := by
    simp only [normalizeInvRow, pensRow2, invAmount?, invQuantity, pensNRow2, Option.bind]
    norm_num
  simp [normalizeInvRows, h1, h2]

/-- C5 as stated is false in its normalization clause: the inventory read
path does not follow the FieldNormalizer rules — a non-numeric quantity
coerces to 0 where the FieldNormalizer default is 1, and an unparseable
amount raises (failing the whole view) where the FieldNormalizer contract
is 0.0 without raising. -/
theorem c5_counterexample :
    invQuantity (.str "x") = 0 ∧
    specNormalizeQuantity (.str "x") = 1 ∧
    invAmount? (.str "bad") = none ∧
    specNormalizeMoney (.str "bad") = 0 ∧
    readAggregated (some [badAmtRow]) = none ∧
    readAggregated (some [badQtyRow]) = some [badQtyAgg] := by
  refine ⟨by decide, by decide, by decide, by decide, by decide, ?_⟩
  have hn : normalizeInvRow badQtyRow = some badQtyNRow := by decide
  have hrows : normalizeInvRows [badQtyRow] = some [badQtyNRow] := by
    simp [normalizeInvRows, hn]
  simp only [readAggregated, hrows]
  have hk : sortKeys (dedupKeys ([badQtyNRow].filterMap (fun r => r.description))) =
      ["pens"] := by
    simp [badQtyNRow, dedupKeys, sortKeys, insertKey]
  rw [hk]
  simp only [List.map, aggFor, badQtyNRow, badQtyAgg]
  norm_num

/-- C5 (amended): the read-time aggregate is empty when no file exists,
groups by description with quantity and amount summed, unit cost the
arithmetic mean of the group's per-row unit costs (not total amount over
total quantity: on the spec's example the mean is 25/2 = 12.5 while
65/5 = 13), and invoice fields from the last-appended row — but the
normalization feeding it is not the FieldNormalizer contract: a bad amount
fails the view and a bad quantity coerces to 0 (see the counterexample). -/
theorem c5_amended :
    readAggregated none = some [] ∧
    readAggregated (some [pensRow1, pensRow2]) = some [pensAgg] ∧
    ((65 : ℚ) / 5 ≠ 25 / 2) ∧
    (∀ raw : List InvRow, ∀ rows : List NRow, ∀ dkey : String,
      normalizeInvRows raw = some rows →
      some dkey ∈ rows.map NRow.description →
      ∃ a ∈ (readAggregated (some raw)).getD [], a = aggFor rows dkey) := by
  refine ⟨rfl, ?_, by norm_num, ?_⟩
  · simp only [readAggregated, pens_normalize]
    have hk : sortKeys (dedupKeys ([pensNRow1, pensNRow2].filterMap
        (fun r => r.description))) = ["pens"] := by
      simp [pensNRow1, pensNRow2, dedupKeys, sortKeys, insertKey]
    rw [hk]
    simp only [List.map, aggFor, pensNRow1, pensNRow2, pensAgg]
    norm_num
  · intro raw rows dkey hraw hmem
    obtain ⟨r, hr, hdesc⟩ := List.mem_map.1 hmem
    have hd : dkey ∈ rows.filterMap (fun x => x.description) :=
      List.mem_filterMap.2 ⟨r, hr, hdesc⟩
    have hd2 : dkey ∈ sortKeys (dedupKeys (rows.filterMap (fun x => x.description))) := by
      rw [mem_sortKeys, mem_dedupKeys]
      exact hd
    refine ⟨aggFor rows dkey, ?_, rfl⟩
    simp only [readAggregated, hraw, Option.getD_some]
    exact List.mem_map_of_mem (aggFor rows) hd2

/-- Witness for C5: on the spec's example file the aggregate contains the
"pens" group computed by the grouping function. -/
theorem c5_witness :
    ∃ a ∈ (readAggregated (some [pensRow1, pensRow2])).getD [],
      a = aggFor [pensNRow1, pensNRow2] "pens" :=
  c5_amended.2.2.2 [pensRow1, pensRow2] [pensNRow1, pensNRow2] "pens"
    pens_normalize (by decide)

end LedgerScribe
